import Mathlib

/-!
Verification of the terrain-synthesis core of the CM2D bitmap library.

The C++ sources under `src/Terrain` are shallowly embedded here:
`float` arithmetic is modelled by exact rationals (`Rat`), 32-bit unsigned
integer arithmetic by `Nat` with explicit `% 2^32`, grids (the `Bitmap<T,C>`
template) by a structure holding the two dimensions and a flat row-major
`List` of cells.  All definitions are executable.
-/

namespace CM2D

/-- The `Bitmap<T,C>` pixel grid (`inc/hgl/2d/Bitmap.h`): `width`, `height`
and a flat row-major buffer `data`.  The class invariant of the library is
`data.length = width * height` for a created bitmap; dimensions are
non-negative, so they are carried as `Nat`. -/
structure Bitmap (α : Type) where
  width : Nat
  height : Nat
  data : List α
deriving Repr, DecidableEq

/-- `BiomeType` (`inc/hgl/2d/TerrainMap.h`): the nine biome categories. -/
inductive BiomeType : Type where
  | Ocean
  | Beach
  | Plains
  | Forest
  | Desert
  | Tundra
  | Snow
  | Mountain
  | River
deriving Repr, DecidableEq

/-- The per-cell classification cascade in the body of
`BiomeMap::GenerateFromMaps` (`src/Terrain/BiomeMap.cpp`, lines 28-71),
with float literals `0.3f`, `0.35f`, ... read as exact rationals. -/
def classifyBiome (h t m : Rat) : BiomeType :=
  if h < 3/10 then BiomeType.Ocean
  else if h < 35/100 then BiomeType.Beach
  else if h > 75/100 then BiomeType.Mountain
  else if h > 7/10 then (if t > 1/2 then BiomeType.Tundra else BiomeType.Snow)
  else if t < 3/10 then BiomeType.Tundra
  else if t > 7/10 then (if m > 1/2 then BiomeType.Forest else BiomeType.Desert)
  else if m < 3/10 then BiomeType.Plains
  else if m > 6/10 then BiomeType.Forest
  else BiomeType.Plains

/-- Modelled from the spec wording of the decision table (spec section 4.7 and
claim C1), written independently of the code for comparison: guarded,
non-overlapping ranges over `(height, temp, moisture)`. -/
def specBiomeTable (h t m : Rat) : BiomeType :=
  if h < 3/10 then BiomeType.Ocean
  else if 3/10 ≤ h ∧ h < 35/100 then BiomeType.Beach
  else if h > 75/100 then BiomeType.Mountain
  else if 7/10 < h ∧ h ≤ 75/100 ∧ t > 1/2 then BiomeType.Tundra
  else if 7/10 < h ∧ h ≤ 75/100 ∧ t ≤ 1/2 then BiomeType.Snow
  else if t < 3/10 then BiomeType.Tundra
  else if t > 7/10 ∧ m > 1/2 then BiomeType.Forest
  else if t > 7/10 ∧ m ≤ 1/2 then BiomeType.Desert
  else if m > 6/10 then BiomeType.Forest
  else BiomeType.Plains

/-- Row-major construction of a `height`-row, `width`-column buffer: the
nested `for (y) for (x)` fill loops of the sources, rows appended in
increasing `y`, each row enumerating `x = 0, ..., width-1`. -/
def rowMajor (w : Nat) (f : Nat → Nat → α) : Nat → List α
  | 0 => []
  | h + 1 => rowMajor w f h ++ (List.range w).map (fun x => f x h)

/-- `BiomeMap::GenerateFromMaps` (`src/Terrain/BiomeMap.cpp`): create a grid
of the height map's dimensions (a failing `Create`, i.e. a zero dimension,
leaves the biome map untouched) and classify every cell; a missing
temperature or moisture map contributes `0.5` per cell. -/
def GenerateFromMaps (hm : Bitmap Rat) (tempMap moistMap : Option (Bitmap Rat))
    (bm : Bitmap BiomeType) : Bitmap BiomeType :=
  let w := hm.width
  let h := hm.height
  if w = 0 ∨ h = 0 then bm
  else
    { width := w, height := h,
      data := rowMajor w (fun x y =>
        let idx := y * w + x
        let height := hm.data.getD idx 0
        let temp := match tempMap with
          | none => 1/2
          | some tm => tm.data.getD idx 0
        let moist := match moistMap with
          | none => 1/2
          | some mm => mm.data.getD idx 0
        classifyBiome height temp moist) h }

/-- `FractalNoise::Generate` (`src/Terrain/NoiseGenerator.cpp`, lines 29-50):
fBm accumulation of `octaves` layers of the base generator, frequency
multiplied by `lacunarity` and amplitude by `persistence` per octave, the
total divided by the amplitude sum.  The base generator is modelled as its
`Generate` function; the source's null-pointer guard cannot fire here since
a generator is a total function.  The loop state is
`(total, amplitude, frequency, maxValue)`. -/
def fractalGenerate (base : Rat → Rat → Rat) (octaves : Nat)
    (lacunarity persistence : Rat) (x y : Rat) : Rat :=
  let st := (List.range octaves).foldl
    (fun (acc : Rat × Rat × Rat × Rat) _ =>
      let total := acc.1
      let amplitude := acc.2.1
      let frequency := acc.2.2.1
      let maxValue := acc.2.2.2
      (total + base (x * frequency) (y * frequency) * amplitude,
       amplitude * persistence, frequency * lacunarity, maxValue + amplitude))
    (0, 1, 1, 0)
  st.1 / st.2.2.2

/-- `PerlinNoise::Fade` (`src/Terrain/PerlinNoise.cpp`): the quintic
smoothstep `6t^5 - 15t^4 + 10t^3`. -/
def fade (t : Rat) : Rat := t * t * t * (t * (t * 6 - 15) + 10)

/-- `PerlinNoise::Lerp` (`src/Terrain/PerlinNoise.cpp`). -/
def lerp (t a b : Rat) : Rat := a + t * (b - a)

/-- `PerlinNoise::Grad` (`src/Terrain/PerlinNoise.cpp`, lines 45-52): the
hash selects one of 16 pseudo-gradient directions, dotted with `(x, y)`. -/
def grad (hash : Nat) (x y : Rat) : Rat :=
  let h := hash &&& 15
  let u := if h < 8 then x else y
  let v := if h < 4 then y else (if h = 12 ∨ h = 14 then x else 0)
  (if h &&& 1 = 0 then u else -u) + (if h &&& 2 = 0 then v else -v)

/-- One step `s = s * 1103515245 + 12345` of the seeding LCG on `uint32`
(`src/Terrain/PerlinNoise.cpp`, line 21), overflow made explicit. -/
def lcgNext (s : Nat) : Nat := (s * 1103515245 + 12345) % 4294967296

/-- `std::swap(p[i], p[j])` on a list: both reads happen before the writes. -/
def swapList (l : List Nat) (i j : Nat) : List Nat :=
  (l.set i (l.getD j 0)).set j (l.getD i 0)

/-- The seeded Fisher-Yates shuffle of the `PerlinNoise` constructor
(`src/Terrain/PerlinNoise.cpp`, lines 17-24): the loop counter `i` runs from
255 down to 1, drawing `j = (s / 65536) % (i + 1)` from the LCG stream. -/
def perlinShuffle : Nat → Nat → List Nat → List Nat
  | _, 0, p => p
  | s, i + 1, p =>
    let s2 := lcgNext s
    let j := (s2 / 65536) % (i + 2)
    perlinShuffle s2 i (swapList p (i + 1) j)

/-- The 512-entry permutation table of the `PerlinNoise` constructor: the
shuffled `0..255` sequence duplicated. -/
def perlinPermutation (seed : Nat) : List Nat :=
  let p := perlinShuffle seed 255 (List.range 256)
  p ++ p

/-- `PerlinNoise::Generate` (`src/Terrain/PerlinNoise.cpp`, lines 54-85).
`int(floor(x)) & 255` on a two's-complement `int` is the non-negative
remainder modulo 256, i.e. `Int.emod _ 256`. -/
def perlinGenerate (seed : Nat) (x y : Rat) : Rat :=
  let perm := perlinPermutation seed
  let X := (Int.emod (Int.floor x) 256).toNat
  let Y := (Int.emod (Int.floor y) 256).toNat
  let xf := x - Int.floor x
  let yf := y - Int.floor y
  let u := fade xf
  let v := fade yf
  let A := perm.getD X 0 + Y
  let AA := perm.getD A 0
  let AB := perm.getD (A + 1) 0
  let B := perm.getD (X + 1) 0 + Y
  let BA := perm.getD B 0
  let BB := perm.getD (B + 1) 0
  lerp v (lerp u (grad AA xf yf) (grad BA (xf - 1) yf))
         (lerp u (grad AB xf (yf - 1)) (grad BB (xf - 1) (yf - 1)))

/-- The running-minimum scan of `HeightMap::Normalize`
(`src/Terrain/HeightMap.cpp`, lines 32-40): the fold starts from `data[0]`
and revisits every cell including the first. -/
def gridMin (l : List Rat) : Rat := l.foldl min (l.headD 0)

/-- The running-maximum scan of `HeightMap::Normalize`. -/
def gridMax (l : List Rat) : Rat := l.foldl max (l.headD 0)

/-- `HeightMap::Normalize` (`src/Terrain/HeightMap.cpp`, lines 26-54):
no-op on an uncreated grid; otherwise scan min/max, substitute a unit range
when `max - min` falls below the epsilon `0.0001`, and remap every cell
linearly into `[minHeight, maxHeight]`. -/
def Normalize (minHeight maxHeight : Rat) (bm : Bitmap Rat) : Bitmap Rat :=
  if bm.data = [] ∨ bm.width = 0 ∨ bm.height = 0 then bm
  else
    let currentMin := gridMin bm.data
    let currentMax := gridMax bm.data
    let range0 := currentMax - currentMin
    let range1 := if range0 < 1/10000 then 1 else range0
    let targetRange := maxHeight - minHeight
    { bm with
      data := bm.data.map (fun v => minHeight + (v - currentMin) / range1 * targetRange) }

/-- The steepest-descent search of `HeightMap::ApplyThermalErosion`
(`src/Terrain/HeightMap.cpp`, lines 104-118): scan the 4 neighbors in the
source's offset order `{-width, +width, -1, +1}`, keeping the first strictly
largest positive drop; the accumulator starts at `(0, idx)`.  Interior cells
have `idx ≥ width + 1`, so the truncated subtractions are exact there. -/
def thermalFind (w : Nat) (l : List Rat) (idx : Nat) : Rat × Nat :=
  [idx - w, idx + w, idx - 1, idx + 1].foldl
    (fun acc n =>
      let diff := l.getD idx 0 - l.getD n 0
      if diff > acc.1 then (diff, n) else acc)
    (0, idx)

/-- The per-cell transfer of `HeightMap::ApplyThermalErosion`
(`src/Terrain/HeightMap.cpp`, lines 120-126): when the steepest drop exceeds
the talus angle, move `0.5 * (maxDiff - talusAngle)` from the cell to that
neighbor, the second read happening after the first write. -/
def thermalCell (w : Nat) (talus : Rat) (l : List Rat) (idx : Nat) : List Rat :=
  let fd := thermalFind w l idx
  if fd.1 > talus then
    let amount := 1/2 * (fd.1 - talus)
    let l1 := l.set idx (l.getD idx 0 - amount)
    l1.set fd.2 (l1.getD fd.2 0 + amount)
  else l

/-- The raster-order interior sweep of both erosion loops:
`y = 1 .. height-2` outer, `x = 1 .. width-2` inner, cell index
`y * width + x`. -/
def interiorIndices (w h : Nat) : List Nat :=
  (List.range (h - 2)).flatMap (fun j =>
    (List.range (w - 2)).map (fun i => (j + 1) * w + (i + 1)))

/-- One full iteration of the thermal-erosion sweep, in place: each cell
sees the already-eroded values written by earlier cells of the same pass. -/
def thermalPass (w h : Nat) (talus : Rat) (l : List Rat) : List Rat :=
  (interiorIndices w h).foldl (thermalCell w talus) l

/-- The `for (iter = 0; iter < iterations; iter++)` outer loop shared by
the two erosion routines. -/
def iterApply (f : List Rat → List Rat) : Nat → List Rat → List Rat
  | 0, l => l
  | n + 1, l => iterApply f n (f l)

/-- `HeightMap::ApplyThermalErosion` (`src/Terrain/HeightMap.cpp`,
lines 89-130): no-op on an uncreated grid, otherwise `iterations` raster
sweeps. -/
def ApplyThermalErosion (iterations : Nat) (talus : Rat) (bm : Bitmap Rat) :
    Bitmap Rat :=
  if bm.data = [] ∨ bm.width = 0 ∨ bm.height = 0 then bm
  else
    { bm with
      data := iterApply (thermalPass bm.width bm.height talus) iterations bm.data }

/-- The lowest-neighbor search of `HeightMap::ApplyHydraulicErosion`
(`src/Terrain/HeightMap.cpp`, lines 146-165): scan the 8 neighbors in the
source's `dy`-major, `dx`-minor order, keeping the first strictly lowest;
the accumulator starts at `(data[idx], idx)`. -/
def hydroFind (w : Nat) (l : List Rat) (idx : Nat) : Rat × Nat :=
  [idx - w - 1, idx - w, idx - w + 1, idx - 1, idx + 1,
   idx + w - 1, idx + w, idx + w + 1].foldl
    (fun acc n => if l.getD n 0 < acc.1 then (l.getD n 0, n) else acc)
    (l.getD idx 0, idx)

/-- The per-cell transfer of `HeightMap::ApplyHydraulicErosion`
(`src/Terrain/HeightMap.cpp`, lines 167-174): when some neighbor is strictly
lower, move `diff * strength * 0.5` to the lowest one. -/
def hydroCell (w : Nat) (strength : Rat) (l : List Rat) (idx : Nat) : List Rat :=
  let fd := hydroFind w l idx
  if fd.2 ≠ idx then
    let diff := l.getD idx 0 - fd.1
    let amount := diff * strength * (1/2)
    let l1 := l.set idx (l.getD idx 0 - amount)
    l1.set fd.2 (l1.getD fd.2 0 + amount)
  else l

/-- One full iteration of the hydraulic-erosion sweep. -/
def hydroPass (w h : Nat) (strength : Rat) (l : List Rat) : List Rat :=
  (interiorIndices w h).foldl (hydroCell w strength) l

/-- `HeightMap::ApplyHydraulicErosion` (`src/Terrain/HeightMap.cpp`,
lines 132-178). -/
def ApplyHydraulicErosion (iterations : Nat) (strength : Rat) (bm : Bitmap Rat) :
    Bitmap Rat :=
  if bm.data = [] ∨ bm.width = 0 ∨ bm.height = 0 then bm
  else
    { bm with
      data := iterApply (hydroPass bm.width bm.height strength) iterations bm.data }

/-- All 4-adjacent cell pairs of a `w`-by-`h` row-major grid (horizontal
neighbors, then vertical neighbors): the measurement grid for the spec's
"maximum adjacent-cell height difference". -/
def adjacentPairs (w h : Nat) : List (Nat × Nat) :=
  ((List.range h).flatMap (fun y =>
    (List.range (w - 1)).map (fun x => (y * w + x, y * w + x + 1))))
  ++ ((List.range (h - 1)).flatMap (fun y =>
    (List.range w).map (fun x => (y * w + x, (y + 1) * w + x))))

/-- The maximum absolute height difference over all 4-adjacent cell pairs. -/
def maxAdjDiff (w h : Nat) (l : List Rat) : Rat :=
  ((adjacentPairs w h).map (fun p => |l.getD p.1 0 - l.getD p.2 0|)).foldl max 0

/-- A 3-by-3 grid exhibiting non-monotone smoothing: the center cell has a
higher un-eroded neighbor above and a deep pit below. -/
def thermalCexGrid : Bitmap Rat := ⟨3, 3, [10, 20, 10, 10, 10, 10, 10, 0, 10]⟩

/-- `HeightMap::GenerateFromNoise` (`src/Terrain/HeightMap.cpp`, lines 7-24):
no-op on an uncreated grid, otherwise fill every cell `(x, y)` with
`noise((x + offsetX) * scale, (y + offsetY) * scale)` in raster order. -/
def GenerateFromNoise (noise : Rat → Rat → Rat) (scale offsetX offsetY : Rat)
    (bm : Bitmap Rat) : Bitmap Rat :=
  if bm.data = [] ∨ bm.width = 0 ∨ bm.height = 0 then bm
  else
    { bm with
      data := rowMajor bm.width (fun x y =>
        noise (((x : Rat) + offsetX) * scale) (((y : Rat) + offsetY) * scale))
        bm.height }

/-- `TerrainGenerator` (`inc/hgl/2d/TerrainMap.h`): a seed and the grid
shape; stateless beyond these. -/
structure TerrainGenerator where
  seed : Nat
  width : Nat
  height : Nat

/-- The buffer produced by a successful `Bitmap::Create(w, h)`: the
uninitialized `new T[w*h]` storage is modelled as zero-filled; every caller
below overwrites all cells before reading them. -/
def createdGrid (w h : Nat) : Bitmap Rat :=
  ⟨w, h, List.replicate (w * h) 0⟩

/-- `TerrainGenerator::GenerateQuick` (`src/Terrain/TerrainGenerator.cpp`,
lines 5-19): a failing `Create` (zero dimension) returns the height map
untouched; otherwise sample `FractalNoise(PerlinNoise(seed), octaves, 2.0,
0.5)` at noise scale `scale / width` and normalize to `[0, 1]`. -/
def GenerateQuick (g : TerrainGenerator) (hm : Bitmap Rat) (scale : Rat)
    (octaves : Nat) : Bitmap Rat :=
  if g.width = 0 ∨ g.height = 0 then hm
  else
    Normalize 0 1 (GenerateFromNoise
      (fun x y => fractalGenerate (perlinGenerate g.seed) octaves 2 (1/2) x y)
      (scale / g.width) 0 0 (createdGrid g.width g.height))

/-- Modelled from the claim C7 wording: the width-by-height grid whose cell
`(x, y)` is `FractalNoise(PerlinNoise(seed), octaves, 2.0, 0.5).Generate(
x * scale / width, y * scale / width)`, then normalized to `[0, 1]`. -/
def quickSpecGrid (g : TerrainGenerator) (scale : Rat) (octaves : Nat) :
    Bitmap Rat :=
  Normalize 0 1
    ⟨g.width, g.height,
     rowMajor g.width (fun x y =>
       fractalGenerate (perlinGenerate g.seed) octaves 2 (1/2)
         ((x : Rat) * scale / g.width) ((y : Rat) * scale / g.width)) g.height⟩

/-- `TerrainGenerator::GenerateBiomes` (`src/Terrain/TerrainGenerator.cpp`,
lines 41-65): a dimension mismatch with the height map returns immediately;
otherwise two auxiliary 4-octave fractal Perlin fields with XOR-decorrelated
seeds are generated, normalized, and fed to `GenerateFromMaps`. -/
def GenerateBiomes (g : TerrainGenerator) (bm : Bitmap BiomeType)
    (hm : Bitmap Rat) (tempScale moistScale : Rat) : Bitmap BiomeType :=
  if hm.width ≠ g.width ∨ hm.height ≠ g.height then bm
  else
    let temperatureMap := Normalize 0 1 (GenerateFromNoise
      (fun x y =>
        fractalGenerate (perlinGenerate (g.seed ^^^ 0x9E3779B9)) 4 2 (1/2) x y)
      (tempScale / g.width) 0 0 (createdGrid g.width g.height))
    let moistureMap := Normalize 0 1 (GenerateFromNoise
      (fun x y =>
        fractalGenerate (perlinGenerate (g.seed ^^^ 0x517CC1B7)) 4 2 (1/2) x y)
      (moistScale / g.width) 0 0 (createdGrid g.width g.height))
    GenerateFromMaps hm (some temperatureMap) (some moistureMap) bm

/-- `BiomeMap::GetBiome` (`src/Terrain/BiomeMap.cpp`, lines 78-85) over
`Bitmap::GetData(x, y)` (`inc/hgl/2d/Bitmap.h`, lines 60-64): a null pixel
pointer (out-of-range coordinates) yields `Ocean`; otherwise the stored
cell is returned.  Cells hold `BiomeType` directly, abstracting the `uint8`
representation written by `SetBiome`. -/
def GetBiome (bm : Bitmap BiomeType) (x y : Int) : BiomeType :=
  if x < 0 ∨ x ≥ (bm.width : Int) ∨ y < 0 ∨ y ≥ (bm.height : Int) then
    BiomeType.Ocean
  else bm.data.getD (y.toNat * bm.width + x.toNat) BiomeType.Ocean

theorem classifyBiome_eq_specTable (h t m : Rat) :
    classifyBiome h t m = specBiomeTable h t m := by
  unfold classifyBiome specBiomeTable
  by_cases c1 : h < 3/10
  · rw [if_pos c1, if_pos c1]
  rw [if_neg c1, if_neg c1]
  by_cases c2 : h < 35/100
  · rw [if_pos c2, if_pos ⟨le_of_not_lt c1, c2⟩]
  rw [if_neg c2, if_neg (show ¬(3/10 ≤ h ∧ h < 35/100) from fun hc => c2 hc.2)]
  by_cases c3 : h > 75/100
  · rw [if_pos c3, if_pos c3]
  rw [if_neg c3, if_neg c3]
  by_cases c4 : h > 7/10
  · rw [if_pos c4]
    by_cases c5 : t > 1/2
    · rw [if_pos c5, if_pos ⟨c4, le_of_not_lt c3, c5⟩]
    · rw [if_neg c5,
        if_neg (show ¬(7/10 < h ∧ h ≤ 75/100 ∧ t > 1/2) from fun hc => c5 hc.2.2),
        if_pos ⟨c4, le_of_not_lt c3, le_of_not_lt c5⟩]
  rw [if_neg c4,
    if_neg (show ¬(7/10 < h ∧ h ≤ 75/100 ∧ t > 1/2) from fun hc => c4 hc.1),
    if_neg (show ¬(7/10 < h ∧ h ≤ 75/100 ∧ t ≤ 1/2) from fun hc => c4 hc.1)]
  by_cases c6 : t < 3/10
  · rw [if_pos c6, if_pos c6]
  rw [if_neg c6, if_neg c6]
  by_cases c7 : t > 7/10
  · rw [if_pos c7]
    by_cases c8 : m > 1/2
    · rw [if_pos c8, if_pos ⟨c7, c8⟩]
    · rw [if_neg c8,
        if_neg (show ¬(t > 7/10 ∧ m > 1/2) from fun hc => c8 hc.2),
        if_pos ⟨c7, le_of_not_lt c8⟩]
  rw [if_neg c7,
    if_neg (show ¬(t > 7/10 ∧ m > 1/2) from fun hc => c7 hc.1),
    if_neg (show ¬(t > 7/10 ∧ m ≤ 1/2) from fun hc => c7 hc.1)]
  by_cases c9 : m < 3/10
  · rw [if_pos c9, if_neg (not_lt.mpr (le_of_lt (c9.trans (by norm_num))))]
  rw [if_neg c9]

theorem rowMajor_length (w : Nat) (f : Nat → Nat → α) :
    ∀ h, (rowMajor w f h).length = h * w := by
  intro h
  induction h with
  | zero => simp [rowMajor]
  | succ h ih => simp [rowMajor, ih, Nat.succ_mul]

theorem getD_map_range (w x : Nat) (g : Nat → α) (d : α) (hx : x < w) :
    ((List.range w).map g).getD x d = g x := by
  rw [List.getD_eq_getElem _ _ (by simpa using hx)]
  simp

theorem rowMajor_getD (w : Nat) (f : Nat → Nat → α) (d : α) :
    ∀ h x y, x < w → y < h → (rowMajor w f h).getD (y * w + x) d = f x y := by
  intro h
  induction h with
  | zero => intro x y _ hy; exact absurd hy (Nat.not_lt_zero y)
  | succ h ih =>
    intro x y hx hy
    rcases Nat.lt_succ_iff_lt_or_eq.mp hy with hlt | heq
    · rw [rowMajor, List.getD_append]
      · exact ih x y hx hlt
      · rw [rowMajor_length]
        calc y * w + x < y * w + w := Nat.add_lt_add_left hx _
        _ = (y + 1) * w := (Nat.succ_mul y w).symm
        _ ≤ h * w := Nat.mul_le_mul_right w hlt
    · subst heq
      rw [rowMajor, List.getD_append_right]
      · rw [rowMajor_length, Nat.add_sub_cancel_left, getD_map_range w x _ d hx]
      · rw [rowMajor_length]; exact Nat.le_add_right _ _

theorem foldl_min_le_init (l : List Rat) : ∀ a : Rat, l.foldl min a ≤ a := by
  induction l with
  | nil => intro a; exact le_rfl
  | cons b l ih => intro a; exact le_trans (ih (min a b)) (min_le_left a b)

theorem foldl_min_le_mem (l : List Rat) (x : Rat) (hx : x ∈ l) :
    ∀ a : Rat, l.foldl min a ≤ x := by
  induction l with
  | nil => exact absurd hx (List.not_mem_nil x)
  | cons b l ih =>
    intro a
    rcases List.mem_cons.mp hx with rfl | hmem
    · exact le_trans (foldl_min_le_init l (min a x)) (min_le_right a x)
    · exact ih hmem (min a b)

theorem foldl_min_mem (l : List Rat) : ∀ a : Rat, l.foldl min a = a ∨ l.foldl min a ∈ l := by
  induction l with
  | nil => intro a; exact Or.inl rfl
  | cons b l ih =>
    intro a
    rcases ih (min a b) with heq | hmem
    · rw [List.foldl_cons, heq]
      rcases min_choice a b with h1 | h1
      · exact Or.inl h1
      · refine Or.inr ?_
        rw [h1]
        exact List.mem_cons_self b l
    · exact Or.inr (List.mem_cons_of_mem b hmem)

theorem le_foldl_max_init (l : List Rat) : ∀ a : Rat, a ≤ l.foldl max a := by
  induction l with
  | nil => intro a; exact le_rfl
  | cons b l ih => intro a; exact le_trans (le_max_left a b) (ih (max a b))

theorem le_foldl_max_mem (l : List Rat) (x : Rat) (hx : x ∈ l) :
    ∀ a : Rat, x ≤ l.foldl max a := by
  induction l with
  | nil => exact absurd hx (List.not_mem_nil x)
  | cons b l ih =>
    intro a
    rcases List.mem_cons.mp hx with rfl | hmem
    · exact le_trans (le_max_right a x) (le_foldl_max_init l (max a x))
    · exact ih hmem (max a b)

theorem foldl_max_mem (l : List Rat) : ∀ a : Rat, l.foldl max a = a ∨ l.foldl max a ∈ l := by
  induction l with
  | nil => intro a; exact Or.inl rfl
  | cons b l ih =>
    intro a
    rcases ih (max a b) with heq | hmem
    · rw [List.foldl_cons, heq]
      rcases max_choice a b with h1 | h1
      · exact Or.inl h1
      · refine Or.inr ?_
        rw [h1]
        exact List.mem_cons_self b l
    · exact Or.inr (List.mem_cons_of_mem b hmem)

theorem gridMin_le (l : List Rat) (x : Rat) (hx : x ∈ l) : gridMin l ≤ x :=
  foldl_min_le_mem l x hx _

theorem le_gridMax (l : List Rat) (x : Rat) (hx : x ∈ l) : x ≤ gridMax l :=
  le_foldl_max_mem l x hx _

theorem headD_mem (l : List Rat) (hl : l ≠ []) (d : Rat) : l.headD d ∈ l := by
  cases l with
  | nil => exact absurd rfl hl
  | cons b t => exact List.mem_cons_self b t

theorem gridMin_mem (l : List Rat) (hl : l ≠ []) : gridMin l ∈ l := by
  rcases foldl_min_mem l (l.headD 0) with heq | hmem
  · unfold gridMin
    rw [heq]
    exact headD_mem l hl 0
  · exact hmem

theorem gridMax_mem (l : List Rat) (hl : l ≠ []) : gridMax l ∈ l := by
  rcases foldl_max_mem l (l.headD 0) with heq | hmem
  · unfold gridMax
    rw [heq]
    exact headD_mem l hl 0
  · exact hmem

theorem fade_zero : fade 0 = 0 := by norm_num [fade]

theorem lerp_zero (a b : Rat) : lerp 0 a b = a := by simp [lerp]

theorem grad_zero (n : Nat) : grad n 0 0 = 0 := by
  simp [grad]

/-- C1: `BiomeMap::GenerateFromMaps` assigns each cell exactly the biome of
the spec's decision table over `(height, temp, moisture)`, with a missing
temperature or moisture map contributing `0.5`; moreover for every
temperature and moisture, height `0.1` classifies Ocean and height `0.9`
classifies Mountain, and the classifier never produces `River`. -/
theorem generateFromMaps_matches_spec_table (hm : Bitmap Rat)
    (tempMap moistMap : Option (Bitmap Rat)) (bm : Bitmap BiomeType)
    (x y : Nat) (hx : x < hm.width) (hy : y < hm.height) :
    ((GenerateFromMaps hm tempMap moistMap bm).data.getD (y * hm.width + x) BiomeType.Ocean
      = specBiomeTable (hm.data.getD (y * hm.width + x) 0)
          (match tempMap with
            | none => 1/2
            | some tm => tm.data.getD (y * hm.width + x) 0)
          (match moistMap with
            | none => 1/2
            | some mm => mm.data.getD (y * hm.width + x) 0))
    ∧ (∀ t m : Rat, classifyBiome (1/10) t m = BiomeType.Ocean)
    ∧ (∀ t m : Rat, classifyBiome (9/10) t m = BiomeType.Mountain)
    ∧ (∀ h t m : Rat, classifyBiome h t m ≠ BiomeType.River) := by
  refine ⟨?_, ?_, ?_, ?_⟩
  · unfold GenerateFromMaps
    rw [if_neg (show ¬(hm.width = 0 ∨ hm.height = 0) by omega)]
    rw [rowMajor_getD hm.width _ _ hm.height x y hx hy]
    exact classifyBiome_eq_specTable _ _ _
  · intro t m
    unfold classifyBiome
    rw [if_pos (by norm_num)]
  · intro t m
    unfold classifyBiome
    rw [if_neg (by norm_num), if_neg (by norm_num), if_pos (by norm_num)]
  · intro h t m
    unfold classifyBiome
    split_ifs <;> decide

/-- Witness for C1 at a concrete 1-by-1 height map with no temperature or
moisture maps. -/
theorem generateFromMaps_matches_spec_table_witness :
    ((GenerateFromMaps ⟨1, 1, [1/10]⟩ none none ⟨0, 0, []⟩).data.getD (0 * 1 + 0) BiomeType.Ocean
      = specBiomeTable (([1/10] : List Rat).getD (0 * 1 + 0) 0) (1/2) (1/2))
    ∧ (∀ t m : Rat, classifyBiome (1/10) t m = BiomeType.Ocean)
    ∧ (∀ t m : Rat, classifyBiome (9/10) t m = BiomeType.Mountain)
    ∧ (∀ h t m : Rat, classifyBiome h t m ≠ BiomeType.River) :=
  generateFromMaps_matches_spec_table ⟨1, 1, [1/10]⟩ none none ⟨0, 0, []⟩ 0 0
    (by decide) (by decide)

/-- C2: with a single octave the fBm sum is `base(x,y) * 1 / 1`, so
`FractalNoise::Generate` agrees exactly with the base generator at every
coordinate, for every lacunarity and persistence. -/
theorem fractalGenerate_one_octave (base : Rat → Rat → Rat)
    (lacunarity persistence : Rat) (x y : Rat) :
    fractalGenerate base 1 lacunarity persistence x y = base x y := by
  simp [fractalGenerate, show List.range 1 = [0] from rfl]

/-- C3: `PerlinNoise::Generate` returns exactly 0 at every integer lattice
point, for every seed: the fractional parts vanish, so both fade weights are
0 and the blend collapses to `Grad(hash, 0, 0) = 0`. -/
theorem perlinGenerate_int_zero (seed : Nat) (i j : Int) :
    perlinGenerate seed (i : Rat) (j : Rat) = 0 := by
  unfold perlinGenerate
  rw [Int.floor_intCast, Int.floor_intCast]
  simp [sub_self, fade_zero, lerp_zero, grad_zero]

theorem getD_map_lt (f : Rat → Rat) (l : List Rat) (i : Nat) (hi : i < l.length)
    (d d' : Rat) : (l.map f).getD i d = f (l.getD i d') := by
  rw [List.getD_eq_getElem _ _ (by simpa using hi), List.getD_eq_getElem _ _ hi,
    List.getElem_map]

theorem normalize_data (minH maxH : Rat) (bm : Bitmap Rat)
    (hd : bm.data ≠ []) (hw : bm.width ≠ 0) (hh : bm.height ≠ 0) :
    (Normalize minH maxH bm).data
      = bm.data.map (fun v => minH + (v - gridMin bm.data) /
          (if gridMax bm.data - gridMin bm.data < 1/10000 then 1
           else gridMax bm.data - gridMin bm.data) * (maxH - minH)) := by
  unfold Normalize
  rw [if_neg (by simp [hd, hw, hh])]

/-- C4: on a created, non-degenerate grid (current spread at least the
epsilon `0.0001`), `Normalize(0,1)` remaps every cell to
`(v - currentMin) / (currentMax - currentMin)`; the resulting cells all lie
in `[0,1]`, the value 0 is attained (the minimum is exactly 0) and the
value 1 is attained (the maximum is exactly 1). -/
theorem normalize_nondegenerate (bm : Bitmap Rat)
    (hd : bm.data ≠ []) (hw : bm.width ≠ 0) (hh : bm.height ≠ 0)
    (hr : 1/10000 ≤ gridMax bm.data - gridMin bm.data) :
    (∀ i < bm.data.length,
        (Normalize 0 1 bm).data.getD i 0
          = (bm.data.getD i 0 - gridMin bm.data) / (gridMax bm.data - gridMin bm.data))
    ∧ (∀ i < bm.data.length, 0 ≤ (Normalize 0 1 bm).data.getD i 0)
    ∧ (∃ i, i < bm.data.length ∧ (Normalize 0 1 bm).data.getD i 0 = 0)
    ∧ (∀ i < bm.data.length, (Normalize 0 1 bm).data.getD i 0 ≤ 1)
    ∧ (∃ i, i < bm.data.length ∧ (Normalize 0 1 bm).data.getD i 0 = 1) := by
  have hr0 : 0 < gridMax bm.data - gridMin bm.data :=
    lt_of_lt_of_le (by norm_num) hr
  have hnot : ¬(gridMax bm.data - gridMin bm.data < 1/10000) := not_lt.mpr hr
  have hcell : ∀ i < bm.data.length,
      (Normalize 0 1 bm).data.getD i 0
        = (bm.data.getD i 0 - gridMin bm.data) / (gridMax bm.data - gridMin bm.data) := by
    intro i hi
    rw [normalize_data 0 1 bm hd hw hh, getD_map_lt _ _ i hi 0 0, if_neg hnot]
    ring
  have hmem : ∀ i, i < bm.data.length → bm.data.getD i 0 ∈ bm.data := by
    intro i hi
    rw [List.getD_eq_getElem _ _ hi]
    exact List.getElem_mem hi
  refine ⟨hcell, ?_, ?_, ?_, ?_⟩
  · intro i hi
    rw [hcell i hi]
    exact div_nonneg (sub_nonneg.mpr (gridMin_le _ _ (hmem i hi))) (le_of_lt hr0)
  · obtain ⟨i, hi, hgi⟩ := List.mem_iff_getElem.mp (gridMin_mem bm.data hd)
    refine ⟨i, hi, ?_⟩
    rw [hcell i hi, List.getD_eq_getElem _ _ hi, hgi, sub_self, zero_div]
  · intro i hi
    rw [hcell i hi]
    rw [div_le_one hr0]
    have := le_gridMax _ _ (hmem i hi)
    linarith
  · obtain ⟨i, hi, hgi⟩ := List.mem_iff_getElem.mp (gridMax_mem bm.data hd)
    refine ⟨i, hi, ?_⟩
    rw [hcell i hi, List.getD_eq_getElem _ _ hi, hgi, div_self (ne_of_gt hr0)]

/-- Witness for C4 on the 1-by-2 grid `[0, 1]`. -/
theorem normalize_nondegenerate_witness :
    (∀ i < ([0, 1] : List Rat).length,
        (Normalize 0 1 ⟨1, 2, [0, 1]⟩).data.getD i 0
          = (([0, 1] : List Rat).getD i 0 - gridMin [0, 1]) / (gridMax [0, 1] - gridMin [0, 1]))
    ∧ (∀ i < ([0, 1] : List Rat).length, 0 ≤ (Normalize 0 1 ⟨1, 2, [0, 1]⟩).data.getD i 0)
    ∧ (∃ i, i < ([0, 1] : List Rat).length ∧ (Normalize 0 1 ⟨1, 2, [0, 1]⟩).data.getD i 0 = 0)
    ∧ (∀ i < ([0, 1] : List Rat).length, (Normalize 0 1 ⟨1, 2, [0, 1]⟩).data.getD i 0 ≤ 1)
    ∧ (∃ i, i < ([0, 1] : List Rat).length ∧ (Normalize 0 1 ⟨1, 2, [0, 1]⟩).data.getD i 0 = 1) :=
  normalize_nondegenerate ⟨1, 2, [0, 1]⟩ (by decide) (by decide) (by decide)
    (by norm_num [gridMin, gridMax])

/-- C5: on a created but degenerate grid (current spread below the epsilon
`0.0001`), `Normalize` substitutes a unit range, so every cell becomes
`minV + (v - currentMin) * (maxV - minV)` and no division by the near-zero
spread occurs. -/
theorem normalize_degenerate (bm : Bitmap Rat) (minV maxV : Rat)
    (hd : bm.data ≠ []) (hw : bm.width ≠ 0) (hh : bm.height ≠ 0)
    (hr : gridMax bm.data - gridMin bm.data < 1/10000) :
    ∀ i < bm.data.length,
      (Normalize minV maxV bm).data.getD i 0
        = minV + (bm.data.getD i 0 - gridMin bm.data) * (maxV - minV) := by
  intro i hi
  rw [normalize_data minV maxV bm hd hw hh, getD_map_lt _ _ i hi 0 0, if_pos hr, div_one]

/-- Witness for C5 on the flat 1-by-1 grid `[5]` remapped into `[2, 7]`,
read back at cell 0. -/
theorem normalize_degenerate_witness :
    (Normalize 2 7 ⟨1, 1, [5]⟩).data.getD 0 0
      = 2 + (([5] : List Rat).getD 0 0 - gridMin [5]) * (7 - 2) :=
  normalize_degenerate ⟨1, 1, [5]⟩ 2 7 (by decide) (by decide) (by decide)
    (by norm_num [gridMin, gridMax]) 0 (by decide)

theorem getD_set_self (l : List Rat) (i : Nat) (x d : Rat) (h : i < l.length) :
    (l.set i x).getD i d = x := by
  rw [List.getD_eq_getElem _ _ (by simpa using h)]
  simp [List.getElem_set_self]

theorem getD_set_ne (l : List Rat) (i j : Nat) (x d : Rat) (h : i ≠ j) :
    (l.set i x).getD j d = l.getD j d := by
  simp [List.getD, List.getElem?_set_ne h]

theorem sum_set (l : List Rat) : ∀ (i : Nat) (x : Rat), i < l.length →
    (l.set i x).sum = l.sum - l.getD i 0 + x := by
  induction l with
  | nil =>
    intro i x h
    simp at h
  | cons b t ih =>
    intro i x h
    cases i with
    | zero =>
      simp [List.set, List.getD]
      ring
    | succ i =>
      simp only [List.set, List.sum_cons]
      rw [ih i x (by simpa using h)]
      have hg : (b :: t).getD (i + 1) 0 = t.getD i 0 := by simp [List.getD]
      rw [hg]
      ring

theorem thermalFind_spec (w : Nat) (l : List Rat) (idx : Nat) (d : Rat) (n : Nat)
    (hfind : thermalFind w l idx = (d, n)) (hne : n ≠ idx) :
    d = l.getD idx 0 - l.getD n 0 := by
  unfold thermalFind at hfind
  simp only [List.foldl] at hfind
  split_ifs at hfind <;> (injection hfind with h1 h2) <;> subst h1 <;> subst h2 <;>
    first | rfl | exact absurd rfl hne

theorem foldl_pick_snd_mem (step : Rat × Nat → Nat → Rat × Nat)
    (hstep : ∀ acc n, (step acc n).2 = acc.2 ∨ (step acc n).2 = n) :
    ∀ (ns : List Nat) (acc : Rat × Nat),
      (ns.foldl step acc).2 = acc.2 ∨ (ns.foldl step acc).2 ∈ ns := by
  intro ns
  induction ns with
  | nil => intro acc; exact Or.inl rfl
  | cons n ns ih =>
    intro acc
    rcases ih (step acc n) with h | h
    · rcases hstep acc n with h2 | h2
      · exact Or.inl (h.trans h2)
      · refine Or.inr ?_
        rw [List.foldl_cons, h, h2]
        exact List.mem_cons_self n ns
    · exact Or.inr (List.mem_cons_of_mem n h)

theorem thermalFind_snd_le (w : Nat) (l : List Rat) (idx : Nat) :
    (thermalFind w l idx).2 ≤ idx + w + 1 := by
  have hstep : ∀ (acc : Rat × Nat) (n : Nat),
      ((fun (acc : Rat × Nat) n =>
          let diff := l.getD idx 0 - l.getD n 0
          if diff > acc.1 then (diff, n) else acc) acc n).2 = acc.2
        ∨ ((fun (acc : Rat × Nat) n =>
          let diff := l.getD idx 0 - l.getD n 0
          if diff > acc.1 then (diff, n) else acc) acc n).2 = n := by
    intro acc n
    simp only
    split_ifs <;> simp
  have := foldl_pick_snd_mem _ hstep [idx - w, idx + w, idx - 1, idx + 1] (0, idx)
  rcases this with h | h
  · rw [thermalFind, h]
    omega
  · rw [thermalFind]
    simp only [List.mem_cons, List.not_mem_nil, or_false] at h
    rcases h with h | h | h | h <;> rw [h] <;> omega

theorem hydroFind_snd_le (w : Nat) (l : List Rat) (idx : Nat) :
    (hydroFind w l idx).2 ≤ idx + w + 1 := by
  have hstep : ∀ (acc : Rat × Nat) (n : Nat),
      ((fun (acc : Rat × Nat) n =>
          if l.getD n 0 < acc.1 then (l.getD n 0, n) else acc) acc n).2 = acc.2
        ∨ ((fun (acc : Rat × Nat) n =>
          if l.getD n 0 < acc.1 then (l.getD n 0, n) else acc) acc n).2 = n := by
    intro acc n
    simp only
    split_ifs <;> simp
  have := foldl_pick_snd_mem _ hstep
    [idx - w - 1, idx - w, idx - w + 1, idx - 1, idx + 1,
     idx + w - 1, idx + w, idx + w + 1] (l.getD idx 0, idx)
  rcases this with h | h
  · rw [hydroFind, h]
    omega
  · rw [hydroFind]
    simp only [List.mem_cons, List.not_mem_nil, or_false] at h
    rcases h with h | h | h | h | h | h | h | h <;> rw [h] <;> omega

theorem thermalCell_sum (w : Nat) (talus : Rat) (l : List Rat) (idx : Nat)
    (hb : idx + w + 1 < l.length) : (thermalCell w talus l idx).sum = l.sum := by
  simp only [thermalCell]
  split_ifs with hc
  · have hn : (thermalFind w l idx).2 < l.length :=
      lt_of_le_of_lt (thermalFind_snd_le w l idx) hb
    have hidx : idx < l.length := by omega
    rw [sum_set _ _ _ (by simpa using hn), sum_set l idx _ hidx]
    ring
  · rfl

theorem hydroCell_sum (w : Nat) (strength : Rat) (l : List Rat) (idx : Nat)
    (hb : idx + w + 1 < l.length) : (hydroCell w strength l idx).sum = l.sum := by
  simp only [hydroCell]
  split_ifs with hc
  · have hn : (hydroFind w l idx).2 < l.length :=
      lt_of_le_of_lt (hydroFind_snd_le w l idx) hb
    have hidx : idx < l.length := by omega
    rw [sum_set _ _ _ (by simpa using hn), sum_set l idx _ hidx]
    ring
  · rfl

theorem thermalCell_length (w : Nat) (talus : Rat) (l : List Rat) (idx : Nat) :
    (thermalCell w talus l idx).length = l.length := by
  simp only [thermalCell]
  split_ifs <;> simp

theorem hydroCell_length (w : Nat) (strength : Rat) (l : List Rat) (idx : Nat) :
    (hydroCell w strength l idx).length = l.length := by
  simp only [hydroCell]
  split_ifs <;> simp

theorem interiorIndices_bound (w h idx : Nat) (hmem : idx ∈ interiorIndices w h) :
    idx + w + 1 < w * h := by
  simp only [interiorIndices, List.mem_flatMap, List.mem_map, List.mem_range] at hmem
  obtain ⟨j, hj, i, hi, rfl⟩ := hmem
  have hiw : i + 2 < w := by omega
  have hjh : j + 3 ≤ h := by omega
  calc (j + 1) * w + (i + 1) + w + 1 = (j + 2) * w + (i + 2) := by ring
  _ < (j + 2) * w + w := by omega
  _ = (j + 3) * w := by ring
  _ ≤ h * w := Nat.mul_le_mul_right w hjh
  _ = w * h := Nat.mul_comm h w

theorem sweep_preserves (w : Nat) (f : List Rat → Nat → List Rat)
    (hlen : ∀ l idx, (f l idx).length = l.length)
    (hsum : ∀ l idx, idx + w + 1 < l.length → (f l idx).sum = l.sum) :
    ∀ (idxs : List Nat) (l : List Rat),
      (∀ idx ∈ idxs, idx + w + 1 < l.length) →
      (idxs.foldl f l).sum = l.sum ∧ (idxs.foldl f l).length = l.length := by
  intro idxs
  induction idxs with
  | nil => intro l _; exact ⟨rfl, rfl⟩
  | cons i is ih =>
    intro l hb
    have hlen1 := hlen l i
    have h1 := hsum l i (hb i (List.mem_cons_self i is))
    have h2 := ih (f l i) (fun idx hm => by
      rw [hlen1]
      exact hb idx (List.mem_cons_of_mem i hm))
    exact ⟨h2.1.trans h1, h2.2.trans hlen1⟩

theorem thermalPass_preserves (w h : Nat) (talus : Rat) (l : List Rat)
    (hlen : l.length = w * h) :
    (thermalPass w h talus l).sum = l.sum
      ∧ (thermalPass w h talus l).length = l.length :=
  sweep_preserves w (thermalCell w talus)
    (fun l idx => thermalCell_length w talus l idx)
    (fun l idx hb => thermalCell_sum w talus l idx hb)
    (interiorIndices w h) l
    (fun idx hm => by
      rw [hlen]
      exact interiorIndices_bound w h idx hm)

theorem hydroPass_preserves (w h : Nat) (strength : Rat) (l : List Rat)
    (hlen : l.length = w * h) :
    (hydroPass w h strength l).sum = l.sum
      ∧ (hydroPass w h strength l).length = l.length :=
  sweep_preserves w (hydroCell w strength)
    (fun l idx => hydroCell_length w strength l idx)
    (fun l idx hb => hydroCell_sum w strength l idx hb)
    (interiorIndices w h) l
    (fun idx hm => by
      rw [hlen]
      exact interiorIndices_bound w h idx hm)

theorem iterApply_preserves (L : Nat) (g : List Rat → List Rat)
    (hg : ∀ l : List Rat, l.length = L → (g l).sum = l.sum ∧ (g l).length = l.length) :
    ∀ (n : Nat) (l : List Rat), l.length = L →
      (iterApply g n l).sum = l.sum ∧ (iterApply g n l).length = l.length := by
  intro n
  induction n with
  | zero => intro l _; exact ⟨rfl, rfl⟩
  | succ n ih =>
    intro l hl
    have h1 := hg l hl
    have h2 := ih (g l) (h1.2.trans hl)
    exact ⟨h2.1.trans h1.1, h2.2.trans h1.2⟩

/-- C8: in exact arithmetic both erosion routines conserve total material:
each transfer subtracts an amount from one cell and adds exactly the same
amount to one neighboring cell, so the sum of all cell heights is unchanged
by any number of iterations of either pass. -/
theorem erosion_conserves_sum (bm : Bitmap Rat) (iterations : Nat)
    (talus strength : Rat) (hlen : bm.data.length = bm.width * bm.height) :
    (ApplyThermalErosion iterations talus bm).data.sum = bm.data.sum
    ∧ (ApplyHydraulicErosion iterations strength bm).data.sum = bm.data.sum := by
  constructor
  · unfold ApplyThermalErosion
    split_ifs with hc
    · rfl
    · exact (iterApply_preserves (bm.width * bm.height) _
        (fun l hl => thermalPass_preserves bm.width bm.height talus l hl)
        iterations bm.data hlen).1
  · unfold ApplyHydraulicErosion
    split_ifs with hc
    · rfl
    · exact (iterApply_preserves (bm.width * bm.height) _
        (fun l hl => hydroPass_preserves bm.width bm.height strength l hl)
        iterations bm.data hlen).1

/-- Witness for C8 on a concrete 3-by-3 grid, two iterations each. -/
theorem erosion_conserves_sum_witness :
    (ApplyThermalErosion 2 (7/10) ⟨3, 3, [9, 1, 2, 3, 4, 5, 6, 7, 8]⟩).data.sum
      = ([9, 1, 2, 3, 4, 5, 6, 7, 8] : List Rat).sum
    ∧ (ApplyHydraulicErosion 2 (1/10) ⟨3, 3, [9, 1, 2, 3, 4, 5, 6, 7, 8]⟩).data.sum
      = ([9, 1, 2, 3, 4, 5, 6, 7, 8] : List Rat).sum :=
  erosion_conserves_sum ⟨3, 3, [9, 1, 2, 3, 4, 5, 6, 7, 8]⟩ 2 (7/10) (1/10)
    (by decide)

set_option maxRecDepth 4000 in
/-- C6 counterexample: a single thermal-erosion pass (iterations = 1,
talus angle 0.7) on `thermalCexGrid` raises the maximum 4-adjacent height
difference from 10 to 14.65: the center sheds material into the pit below
while keeping its higher, never-processed neighbor above. -/
theorem thermal_pass_increases_maxAdjDiff :
    maxAdjDiff 3 3 (ApplyThermalErosion 1 (7/10) thermalCexGrid).data
      > maxAdjDiff 3 3 thermalCexGrid.data :=
  of_decide_eq_true (by with_unfolding_all rfl)

/-- C6 amended: a single thermal-erosion transfer lowers the height
difference between the source cell and its steepest-descent neighbor from
`maxDiff` (which is their current difference) to exactly the talus angle,
a strict decrease; the grid-wide maximum 4-adjacent difference, however,
may grow after a full pass (see the counterexample). -/
theorem thermalCell_transfer_reduces (w : Nat) (talus : Rat) (l : List Rat)
    (idx n : Nat) (d : Rat)
    (hfind : thermalFind w l idx = (d, n)) (hne : n ≠ idx)
    (hidx : idx < l.length) (hn : n < l.length) (hd : talus < d) :
    d = l.getD idx 0 - l.getD n 0
    ∧ (thermalCell w talus l idx).getD idx 0
        - (thermalCell w talus l idx).getD n 0 = talus
    ∧ talus < d := by
  have hspec := thermalFind_spec w l idx d n hfind hne
  refine ⟨hspec, ?_, hd⟩
  simp only [thermalCell, hfind]
  split_ifs with hc
  · rw [getD_set_ne _ n idx _ _ hne,
      getD_set_self _ idx _ _ hidx,
      getD_set_self _ n _ _ (by simpa using hn),
      getD_set_ne _ idx n _ _ (Ne.symm hne)]
    linarith
  · exact absurd hd hc

set_option maxRecDepth 4000 in
/-- Witness for the amended C6 on `thermalCexGrid`: the center cell 4 sheds
into its pit neighbor 7, whose pre-transfer difference 10 drops to 0.7. -/
theorem thermalCell_transfer_reduces_witness :
    ((10 : Rat) = ([10, 20, 10, 10, 10, 10, 10, 0, 10] : List Rat).getD 4 0
        - ([10, 20, 10, 10, 10, 10, 10, 0, 10] : List Rat).getD 7 0)
    ∧ ((thermalCell 3 (7/10) [10, 20, 10, 10, 10, 10, 10, 0, 10] 4).getD 4 0
        - (thermalCell 3 (7/10) [10, 20, 10, 10, 10, 10, 10, 0, 10] 4).getD 7 0
        = 7/10)
    ∧ (7/10 : Rat) < 10 :=
  thermalCell_transfer_reduces 3 (7/10) [10, 20, 10, 10, 10, 10, 10, 0, 10]
    4 7 10 (of_decide_eq_true (by with_unfolding_all rfl)) (by decide)
    (by decide) (by decide) (by norm_num)

theorem rowMajor_congr (w : Nat) (f g : Nat → Nat → α)
    (hfg : ∀ x y, f x y = g x y) : ∀ h, rowMajor w f h = rowMajor w g h := by
  intro h
  induction h with
  | zero => rfl
  | succ h ih =>
    show rowMajor w f h ++ _ = rowMajor w g h ++ _
    rw [ih, show (fun x => f x h) = (fun x => g x h) from funext fun x => hfg x h]

/-- C7: for positive dimensions, `TerrainGenerator::GenerateQuick` produces
exactly the grid obtained by filling each cell `(x, y)` of a width-by-height
grid with `FractalNoise(PerlinNoise(seed), octaves, 2.0, 0.5).Generate(
x * scale / width, y * scale / width)` and normalizing it to `[0, 1]`. -/
theorem generateQuick_spec (g : TerrainGenerator) (hm : Bitmap Rat)
    (scale : Rat) (octaves : Nat) (hw : g.width ≠ 0) (hh : g.height ≠ 0) :
    GenerateQuick g hm scale octaves = quickSpecGrid g scale octaves := by
  have hdata : rowMajor g.width (fun x y =>
      fractalGenerate (perlinGenerate g.seed) octaves 2 (1/2)
        (((x : Rat) + 0) * (scale / g.width)) (((y : Rat) + 0) * (scale / g.width)))
      g.height
    = rowMajor g.width (fun x y =>
      fractalGenerate (perlinGenerate g.seed) octaves 2 (1/2)
        ((x : Rat) * scale / g.width) ((y : Rat) * scale / g.width)) g.height := by
    refine rowMajor_congr _ _ _ (fun x y => ?_) _
    rw [add_zero, add_zero, ← mul_div_assoc, ← mul_div_assoc]
  unfold GenerateQuick quickSpecGrid GenerateFromNoise
  rw [if_neg (by simp [hw, hh]),
    if_neg (show ¬((createdGrid g.width g.height).data = []
        ∨ (createdGrid g.width g.height).width = 0
        ∨ (createdGrid g.width g.height).height = 0) by
      simp [createdGrid, List.replicate_eq_nil_iff, Nat.mul_eq_zero, hw, hh])]
  exact congrArg (Normalize 0 1) (congrArg (Bitmap.mk g.width g.height) hdata)

/-- Witness for C7 at a 1-by-1 generator with seed 42, scale 1, one octave. -/
theorem generateQuick_spec_witness :
    GenerateQuick ⟨42, 1, 1⟩ ⟨0, 0, []⟩ 1 1 = quickSpecGrid ⟨42, 1, 1⟩ 1 1 :=
  generateQuick_spec ⟨42, 1, 1⟩ ⟨0, 0, []⟩ 1 1 (by decide) (by decide)

/-- C9: when the height map's dimensions differ from the generator's,
`TerrainGenerator::GenerateBiomes` returns immediately and the biome map is
left completely unchanged. -/
theorem generateBiomes_dim_mismatch (g : TerrainGenerator) (bm : Bitmap BiomeType)
    (hm : Bitmap Rat) (tempScale moistScale : Rat)
    (hdim : hm.width ≠ g.width ∨ hm.height ≠ g.height) :
    GenerateBiomes g bm hm tempScale moistScale = bm := by
  unfold GenerateBiomes
  rw [if_pos hdim]

/-- Witness for C9: a 1-by-1 height map against a 2-by-2 generator leaves
the biome map untouched. -/
theorem generateBiomes_dim_mismatch_witness :
    GenerateBiomes ⟨1, 2, 2⟩ ⟨0, 0, []⟩ ⟨1, 1, [0]⟩ 1 1 = ⟨0, 0, []⟩ :=
  generateBiomes_dim_mismatch ⟨1, 2, 2⟩ ⟨0, 0, []⟩ ⟨1, 1, [0]⟩ 1 1
    (by decide)

/-- C10: every out-of-range query (negative coordinate or coordinate at or
beyond the dimension, including any query on an uncreated map) makes
`BiomeMap::GetBiome` return `Ocean`, indistinguishable from reading a
genuine Ocean cell. -/
theorem getBiome_out_of_range_ocean (bm : Bitmap BiomeType) (x y : Int)
    (hout : x < 0 ∨ x ≥ (bm.width : Int) ∨ y < 0 ∨ y ≥ (bm.height : Int)) :
    GetBiome bm x y = BiomeType.Ocean := by
  unfold GetBiome
  rw [if_pos hout]

/-- Witness for C10: querying cell `(0, 0)` of an uncreated biome map. -/
theorem getBiome_out_of_range_ocean_witness :
    GetBiome ⟨0, 0, []⟩ 0 0 = BiomeType.Ocean :=
  getBiome_out_of_range_ocean ⟨0, 0, []⟩ 0 0 (by decide)

end CM2D
